import Mathlib

/-!
Verification of the TileDB experimental DAG synchronization core:
the single-slot handshake channel (port finite state machine) and the
shuffled shutdown-aware unbounded queue (`RandomizedQueue`).

The `RandomizedQueue` definitions are a shallow embedding of
`experimental/tiledb/common/dag/utility/randomized_queue.h`.  The random
shuffle performed by `shuffle_items` is modelled by passing the shuffle
function explicitly; theorems quantify over all shuffles that permute the
backing sequence, which is the only property `std::shuffle` guarantees
deterministically.

The channel state machine's policy layer (`on_source_swap`,
`on_sink_swap` of `AsyncStateMachine` and `UnifiedAsyncStateMachine`) is
embedded from `experimental/tiledb/common/dag/ports/test/unit_fsm.cc`.
The transition engine itself lives in `ports/fsm.h`, which is not part of
the available sources, so it is modelled from the specification's
transition table.
-/

namespace TileDBDag

/-- The four channel states of the port finite state machine: a pair of
source-slot and sink-slot occupancy.  Names follow the `str` values used
by the source (`empty_empty`, `empty_full`, `full_empty`, `full_full`);
the first component is the source slot, the second the sink slot. -/
inductive PortState where
  | empty_empty
  | empty_full
  | full_empty
  | full_full
deriving DecidableEq, Repr

/-- The four externally triggered events of the port finite state
machine, named as in the source (`PortEvent`). -/
inductive PortEvent where
  | source_fill
  | push
  | pull
  | sink_drain
deriving DecidableEq, Repr

/-- Whether the source slot is full in a given port state. -/
def PortState.srcFull : PortState → Bool
  | .empty_empty => false
  | .empty_full => false
  | .full_empty => true
  | .full_full => true

/-- Whether the sink slot is full in a given port state. -/
def PortState.snkFull : PortState → Bool
  | .empty_empty => false
  | .empty_full => true
  | .full_empty => false
  | .full_full => true

/-- Build a port state from source-slot and sink-slot occupancy. -/
def mkState : Bool → Bool → PortState
  | false, false => .empty_empty
  | false, true => .empty_full
  | true, false => .full_empty
  | true, true => .full_full

/-- Outcome of a transition of the state transition engine: a productive
swap, a state-only change (fill/drain), or a blocked no-op transition. -/
inductive Outcome where
  | Swapped
  | StateOnly
  | Blocked
deriving DecidableEq, Repr

/-- Modelled from the spec: the pure transition engine
`step(state, event) -> (new_state, outcome)` of `ports/fsm.h`, which is
not among the available sources (only its tests are).  Per the spec's
transition table: `SourceFill` requires the source slot empty and fills
it; `SinkDrain` requires the sink slot full and empties it; `Push`
requires the source slot full and swaps into the sink slot when that is
empty, otherwise blocks; `Pull` requires the sink slot empty and swaps
from the source slot when that is full, otherwise blocks.  A call whose
precondition fails is a caller contract violation, modelled as `none`. -/
def step : PortState → PortEvent → Option (PortState × Outcome)
  | s, .source_fill =>
    if s.srcFull then none
    else some (mkState true s.snkFull, .StateOnly)
  | s, .sink_drain =>
    if s.snkFull then some (mkState s.srcFull false, .StateOnly)
    else none
  | s, .push =>
    if s.srcFull then
      if s.snkFull then some (s, .Blocked)
      else some (.empty_full, .Swapped)
    else none
  | s, .pull =>
    if s.snkFull then none
    else
      if s.srcFull then some (.empty_full, .Swapped)
      else some (s, .Blocked)

/-- Apply an event to a state, keeping the state unchanged on a contract
violation (used only on disciplined sequences where none occurs). -/
def applyEvent (s : PortState) (e : PortEvent) : PortState :=
  match step s e with
  | some (s', _) => s'
  | none => s

/-- One round trip of the channel: `SourceFill`, then a handoff driven
either by `Push` or by `Pull`, then `SinkDrain`. -/
def roundTrip (usePull : Bool) (s : PortState) : PortState :=
  applyEvent (applyEvent (applyEvent s .source_fill)
    (if usePull then .pull else .push)) .sink_drain

/-- Iterate round trips, each handoff driven by `Push` or `Pull`
according to the list of choices. -/
def roundTrips : List Bool → PortState → PortState
  | [], s => s
  | b :: bs, s => roundTrips bs (roundTrip b s)

/-- The observable state of the swap/wait policy machines of
`unit_fsm.cc` (`AsyncStateMachine` and `UnifiedAsyncStateMachine`): the
port state, the two item slots, and the two swap counters.  The
condition variables and the transient `next_state` written just before
returning from a blocked wait carry no further sequential state. -/
structure SwapMachine (α : Type) where
  state : PortState
  source_item : α
  sink_item : α
  source_swaps : Nat
  sink_swaps : Nat
deriving DecidableEq, Repr

/-- `AsyncStateMachine::on_source_swap`: when the state is `full_empty`,
swap the two item slots, notify the sink, set the state (and next state)
to `empty_full` and increment `source_swaps`; otherwise notify the sink,
wait on the source condition variable, and on waking leave the state
unchanged. -/
def on_source_swap (m : SwapMachine α) : SwapMachine α :=
  if m.state = .full_empty then
    { m with
      source_item := m.sink_item
      sink_item := m.source_item
      state := .empty_full
      source_swaps := m.source_swaps + 1 }
  else m

/-- `AsyncStateMachine::on_sink_swap`: when the state is `full_empty`,
swap the two item slots, notify the source, set the state (and next
state) to `empty_full` and increment `sink_swaps`; otherwise notify the
source, wait on the sink condition variable, and on waking leave the
state unchanged. -/
def on_sink_swap (m : SwapMachine α) : SwapMachine α :=
  if m.state = .full_empty then
    { m with
      source_item := m.sink_item
      sink_item := m.source_item
      state := .empty_full
      sink_swaps := m.sink_swaps + 1 }
  else m

/-- `UnifiedAsyncStateMachine::on_source_swap`: same swap and
`source_swaps` increment as the two-condition-variable machine, with a
single shared condition variable. -/
def unified_on_source_swap (m : SwapMachine α) : SwapMachine α :=
  if m.state = .full_empty then
    { m with
      source_item := m.sink_item
      sink_item := m.source_item
      state := .empty_full
      source_swaps := m.source_swaps + 1 }
  else m

/-- `UnifiedAsyncStateMachine::on_sink_swap`: delegates to
`on_source_swap` of the same class. -/
def unified_on_sink_swap (m : SwapMachine α) : SwapMachine α :=
  unified_on_source_swap m

/-- A configuration of one channel run: the port state, the contents of
the two slots (`none` when the corresponding slot is empty), the items
not yet supplied by the producer (`inQ`), the items already observed by
the consumer's drains (`out`), and the two protocol flags: `pPend` is
true between a producer `SourceFill` and the completion of its `Push`,
`cPend` between the completion of a consumer `Pull` and its
`SinkDrain`. -/
structure ChanConfig (α : Type) where
  st : PortState
  src : Option α
  snk : Option α
  inQ : List α
  out : List α
  pPend : Bool
  cPend : Bool

/-- The interleaving semantics of the disciplined producer/consumer
protocol of `unit_fsm.cc`: the producer alternates `SourceFill` with
the next input item and `Push`; the consumer alternates `Pull` and
`SinkDrain`.  A `Push` (resp. `Pull`) whose swap precondition is not met
blocks without changing the configuration and is therefore not a step;
it completes either by performing the swap itself from `full_empty`
(`push_swap` / `pull_swap`) or as a no-op after the other side's call
already performed this round's swap (`push_noop` / `pull_noop`). -/
inductive ChanStep : ChanConfig α → ChanConfig α → Prop where
  | source_fill (x : α) (rest out : List α) (snk : Option α)
      (kF cP : Bool) :
    ChanStep ⟨mkState false kF, none, snk, x :: rest, out, false, cP⟩
      ⟨mkState true kF, some x, snk, rest, out, true, cP⟩
  | push_swap (x : α) (inQ out : List α) (cP : Bool) :
    ChanStep ⟨mkState true false, some x, none, inQ, out, true, cP⟩
      ⟨mkState false true, none, some x, inQ, out, false, cP⟩
  | push_noop (inQ out : List α) (snk : Option α) (kF cP : Bool) :
    ChanStep ⟨mkState false kF, none, snk, inQ, out, true, cP⟩
      ⟨mkState false kF, none, snk, inQ, out, false, cP⟩
  | pull_swap (x : α) (inQ out : List α) (pP : Bool) :
    ChanStep ⟨mkState true false, some x, none, inQ, out, pP, false⟩
      ⟨mkState false true, none, some x, inQ, out, pP, true⟩
  | pull_noop (inQ out : List α) (src : Option α) (y : α) (sF pP : Bool) :
    ChanStep ⟨mkState sF true, src, some y, inQ, out, pP, false⟩
      ⟨mkState sF true, src, some y, inQ, out, pP, true⟩
  | sink_drain (y : α) (inQ out : List α) (src : Option α) (sF pP : Bool) :
    ChanStep ⟨mkState sF true, src, some y, inQ, out, pP, true⟩
      ⟨mkState sF false, src, none, inQ, out ++ [y], pP, false⟩

/-- The initial configuration: state `empty_empty`, both slots empty,
all input still to be supplied, nothing observed. -/
def initConfig (xs : List α) : ChanConfig α :=
  ⟨.empty_empty, none, none, xs, [], false, false⟩

/-- The inductive invariant of a channel run over input `xs`: the input
splits as drained output, then the sink-slot content, then the
source-slot content, then the not-yet-supplied items; and slot
occupancy agrees with the port state. -/
def ChanInv (xs : List α) (c : ChanConfig α) : Prop :=
  xs = c.out ++ c.snk.toList ++ c.src.toList ++ c.inQ ∧
  c.src.isSome = c.st.srcFull ∧
  c.snk.isSome = c.st.snkFull

theorem mkState_srcFull (a b : Bool) : (mkState a b).srcFull = a := by
  cases a <;> cases b <;> rfl

theorem mkState_snkFull (a b : Bool) : (mkState a b).snkFull = b := by
  cases a <;> cases b <;> rfl

theorem chanInv_step {xs : List α} {c c' : ChanConfig α}
    (h : ChanStep c c') (hinv : ChanInv xs c) : ChanInv xs c' := by
  obtain ⟨h1, h2, h3⟩ := hinv
  cases h <;>
    refine ⟨?_, ?_, ?_⟩ <;>
    simp_all [ChanInv, mkState_srcFull, mkState_snkFull]

theorem chanInv_reachable {xs : List α} {c : ChanConfig α}
    (h : Relation.ReflTransGen ChanStep (initConfig xs) c) : ChanInv xs c := by
  induction h with
  | refl => exact ⟨by simp [initConfig], rfl, rfl⟩
  | tail _ hstep ih => exact chanInv_step hstep ih

/-- Claim C2: for every sequence of channel events in which the producer
alternates `SourceFill` then `Push` and the consumer alternates `Pull`
then `SinkDrain`, starting from `EmptyEmpty`, the state after `n`
completed round trips is `EmptyEmpty`, and the sequence of items
observed at the sink by drain equals the sequence of items supplied at
the source by fill, in the same order, with no item lost or
duplicated. -/
theorem channel_delivers_in_order {α : Type} (xs : List α) (c : ChanConfig α)
    (h : Relation.ReflTransGen ChanStep (initConfig xs) c)
    (hn : c.out.length = xs.length) :
    c.st = PortState.empty_empty ∧ c.out = xs := by
  obtain ⟨h1, h2, h3⟩ := chanInv_reachable h
  obtain ⟨st, src, snk, inQ, out, pP, cP⟩ := c
  simp only at h1 h2 h3 hn ⊢
  have hlen := congrArg List.length h1
  simp only [List.length_append] at hlen
  have hsnk0 : snk.toList.length = 0 := by omega
  have hsrc0 : src.toList.length = 0 := by omega
  have hinQ0 : inQ.length = 0 := by omega
  cases snk with
  | some a => simp at hsnk0
  | none =>
  cases src with
  | some a => simp at hsrc0
  | none =>
  have hinQ : inQ = [] := List.length_eq_zero.mp hinQ0
  subst hinQ
  simp only [Option.toList_none, List.append_nil, List.nil_append] at h1
  cases st <;>
    simp_all [PortState.srcFull, PortState.snkFull, initConfig]

/-- Witness for C2: a complete one-item run (fill 19, push performs the
swap, pull completes as a no-op, drain observes 19) reaches a
configuration with one drain completed, for which the theorem yields
state `EmptyEmpty` and output `[19]`. -/
theorem channel_delivers_in_order_witness :
    (⟨PortState.empty_empty, none, none, [], [19], false, false⟩ :
      ChanConfig Nat).st = PortState.empty_empty ∧
    (⟨PortState.empty_empty, none, none, [], [19], false, false⟩ :
      ChanConfig Nat).out = [19] :=
  channel_delivers_in_order [19] _
    (Relation.ReflTransGen.tail
      (Relation.ReflTransGen.tail
        (Relation.ReflTransGen.tail
          (Relation.ReflTransGen.tail Relation.ReflTransGen.refl
            (ChanStep.source_fill 19 [] [] none false false))
          (ChanStep.push_swap 19 [] [] false))
        (ChanStep.pull_noop [] [] none 19 false false))
      (ChanStep.sink_drain 19 [] [] none false false))
    rfl

/-- Claim C3: a `Push` or `Pull` event applied in state `FullEmpty`
always produces state `EmptyFull` with a swap, and in the swapping
policies the corresponding counter is incremented (`source_swaps` by the
source-side handler, `sink_swaps` by the sink-side handler of the
two-condition-variable machine; the unified machine funnels both
handlers through the source-side one); a `Push` in `FullFull` and a
`Pull` in `EmptyEmpty` leave the state unchanged. -/
theorem push_pull_full_empty_swap (m : SwapMachine α) :
    step PortState.full_empty PortEvent.push
      = some (PortState.empty_full, Outcome.Swapped) ∧
    step PortState.full_empty PortEvent.pull
      = some (PortState.empty_full, Outcome.Swapped) ∧
    step PortState.full_full PortEvent.push
      = some (PortState.full_full, Outcome.Blocked) ∧
    step PortState.empty_empty PortEvent.pull
      = some (PortState.empty_empty, Outcome.Blocked) ∧
    (m.state = PortState.full_empty →
      on_source_swap m = ⟨PortState.empty_full, m.sink_item, m.source_item,
        m.source_swaps + 1, m.sink_swaps⟩ ∧
      on_sink_swap m = ⟨PortState.empty_full, m.sink_item, m.source_item,
        m.source_swaps, m.sink_swaps + 1⟩ ∧
      unified_on_source_swap m = ⟨PortState.empty_full, m.sink_item,
        m.source_item, m.source_swaps + 1, m.sink_swaps⟩ ∧
      unified_on_sink_swap m = ⟨PortState.empty_full, m.sink_item,
        m.source_item, m.source_swaps + 1, m.sink_swaps⟩) ∧
    (m.state = PortState.full_full →
      on_source_swap m = m ∧ unified_on_source_swap m = m) ∧
    (m.state = PortState.empty_empty →
      on_sink_swap m = m ∧ unified_on_sink_swap m = m) := by
  refine ⟨rfl, rfl, rfl, rfl, ?_, ?_, ?_⟩ <;> intro hst <;>
    simp [on_source_swap, on_sink_swap, unified_on_source_swap,
      unified_on_sink_swap, hst]

/-- Witness for C3: the swap handlers evaluated on concrete machine
states in `full_empty`, `full_full` and `empty_empty`. -/
theorem push_pull_full_empty_swap_witness :
    (on_source_swap (⟨PortState.full_empty, 7, 3, 0, 0⟩ : SwapMachine Nat)
      = ⟨PortState.empty_full, 3, 7, 1, 0⟩ ∧
     on_sink_swap (⟨PortState.full_empty, 7, 3, 0, 0⟩ : SwapMachine Nat)
      = ⟨PortState.empty_full, 3, 7, 0, 1⟩) ∧
    on_source_swap (⟨PortState.full_full, 7, 3, 0, 0⟩ : SwapMachine Nat)
      = ⟨PortState.full_full, 7, 3, 0, 0⟩ ∧
    on_sink_swap (⟨PortState.empty_empty, 7, 3, 0, 0⟩ : SwapMachine Nat)
      = ⟨PortState.empty_empty, 7, 3, 0, 0⟩ :=
  ⟨⟨((push_pull_full_empty_swap
      (⟨PortState.full_empty, 7, 3, 0, 0⟩ : SwapMachine Nat)).2.2.2.2.1
        rfl).1,
    ((push_pull_full_empty_swap
      (⟨PortState.full_empty, 7, 3, 0, 0⟩ : SwapMachine Nat)).2.2.2.2.1
        rfl).2.1⟩,
   ((push_pull_full_empty_swap
      (⟨PortState.full_full, 7, 3, 0, 0⟩ : SwapMachine Nat)).2.2.2.2.2.1
        rfl).1,
   ((push_pull_full_empty_swap
      (⟨PortState.empty_empty, 7, 3, 0, 0⟩ : SwapMachine Nat)).2.2.2.2.2.2
        rfl).1⟩

/-- Claim C8: cycling `SourceFill`, then a handoff driven by `Push` or
by `Pull` (in any mixture across rounds), then `SinkDrain`, starting
from `EmptyEmpty`, always returns the state to `EmptyEmpty`, for every
number of repetitions. -/
theorem roundTrips_return_empty_empty (choices : List Bool) :
    roundTrips choices PortState.empty_empty = PortState.empty_empty := by
  induction choices with
  | nil => rfl
  | cons b bs ih => cases b <;> exact ih

end TileDBDag

namespace TileDBCommon

/-- Shallow embedding of `tiledb::common::RandomizedQueue<Item>`:
the backing sequence `items_` together with the `draining_` and
`shutdown_` flags.  The mutex and condition variable synchronize access
but carry no sequential state. -/
structure RandomizedQueue (α : Type) where
  items_ : List α
  draining_ : Bool
  shutdown_ : Bool
deriving DecidableEq, Repr

namespace RandomizedQueue

/-- `push(item)`: if `draining_` or `shutdown_` is set, returns `false`
and changes nothing; otherwise appends the item to the backing sequence
(`items_.push_back(item)`) and returns `true`.  Never waits. -/
def push (x : α) (q : RandomizedQueue α) : Bool × RandomizedQueue α :=
  if q.draining_ || q.shutdown_ then (false, q)
  else (true, { q with items_ := q.items_ ++ [x] })

/-- `try_push(item)`: present for historical reasons; the queue is
unbounded, so the body is identical to `push`. -/
def try_push (x : α) (q : RandomizedQueue α) : Bool × RandomizedQueue α :=
  if q.draining_ || q.shutdown_ then (false, q)
  else (true, { q with items_ := q.items_ ++ [x] })

/-- `try_pop()`: if the backing sequence is empty, or `draining_` or
`shutdown_` is set, returns nothing; otherwise shuffles the items
(`shuffle_items()`, modelled by the function `f`), takes the back
element and removes it.  The `none` fallthrough of the match is
unreachable whenever `f` permutes the sequence. -/
def try_pop (f : List α → List α) (q : RandomizedQueue α) :
    Option α × RandomizedQueue α :=
  if q.items_.isEmpty || q.draining_ || q.shutdown_ then (none, q)
  else
    match (f q.items_).getLast? with
    | some item => (some item, { q with items_ := (f q.items_).dropLast })
    | none => (none, q)

/-- `pop()`: waits until the queue is non-empty or `draining_` or
`shutdown_` is set (`none` models the blocked wait); then returns
nothing if `draining_`-with-empty or `shutdown_` holds, otherwise
shuffles and removes the back element. -/
def pop (f : List α → List α) (q : RandomizedQueue α) :
    Option (Option α × RandomizedQueue α) :=
  if q.items_.isEmpty && !q.draining_ && !q.shutdown_ then none
  else if (q.draining_ && q.items_.isEmpty) || q.shutdown_ then
    some (none, q)
  else
    match (f q.items_).getLast? with
    | some item => some (some item, { q with items_ := (f q.items_).dropLast })
    | none => some (none, q)

/-- `drain()`: soft shutdown; sets `draining_` and notifies all
waiters. -/
def drain (q : RandomizedQueue α) : RandomizedQueue α :=
  { q with draining_ := true }

/-- `shutdown()`: hard shutdown; sets `shutdown_` and notifies all
waiters. -/
def shutdown (q : RandomizedQueue α) : RandomizedQueue α :=
  { q with shutdown_ := true }

/-- `size()`: number of items in the queue. -/
def size (q : RandomizedQueue α) : Nat :=
  q.items_.length

/-- `empty()`: whether the backing sequence is empty. -/
def empty (q : RandomizedQueue α) : Bool :=
  q.items_.isEmpty

/-- Run a sequence of `pop` calls, one shuffle function per call,
collecting the successfully returned items in order.  A blocked `pop`
(one that would wait forever) stops the run. -/
def pops : List (List α → List α) → RandomizedQueue α →
    List α × RandomizedQueue α
  | [], q => ([], q)
  | f :: fs, q =>
    match pop f q with
    | some (some x, q') =>
      let r := pops fs q'
      (x :: r.1, r.2)
    | some (none, q') => pops fs q'
    | none => ([], q)

end RandomizedQueue

/-- One call of the public interface of `RandomizedQueue`, with the
item pushed or the shuffle used recorded in the constructor.  `size` and
`empty` are read-only and do not appear as state transformers. -/
inductive QOp (α : Type) where
  | push (x : α)
  | try_push (x : α)
  | try_pop (f : List α → List α)
  | pop (f : List α → List α)
  | drain
  | shutdown

/-- The queue state after one interface call (the state is unchanged by
a `pop` that would block). -/
def applyQOp (q : RandomizedQueue α) : QOp α → RandomizedQueue α
  | .push x => (RandomizedQueue.push x q).2
  | .try_push x => (RandomizedQueue.try_push x q).2
  | .try_pop f => (RandomizedQueue.try_pop f q).2
  | .pop f =>
    match RandomizedQueue.pop f q with
    | some (_, q') => q'
    | none => q
  | .drain => RandomizedQueue.drain q
  | .shutdown => RandomizedQueue.shutdown q

/-- The queue state after a sequence of interface calls. -/
def runQOps (q : RandomizedQueue α) : List (QOp α) → RandomizedQueue α
  | [] => q
  | op :: ops => runQOps (applyQOp q op) ops

/-- Claim C1 (counterexample): on a queue holding one item with
`draining_` set and `shutdown_` clear, `try_pop` returns no item, even
though an item is queued and neither shutdown nor draining-with-empty
holds; the claim that `try_pop` still returns an item while draining
with items queued is false of the code, which bails out whenever
`draining_` is set. -/
theorem try_pop_draining_nonempty_none :
    (⟨[0], true, false⟩ : RandomizedQueue Nat).items_.isEmpty = false ∧
    (⟨[0], true, false⟩ : RandomizedQueue Nat).draining_ = true ∧
    (⟨[0], true, false⟩ : RandomizedQueue Nat).shutdown_ = false ∧
    (RandomizedQueue.try_pop (fun l => l)
      (⟨[0], true, false⟩ : RandomizedQueue Nat)).1 = none := by
  decide

/-- Claim C1 (amended): for every queue state and every shuffle that
permutes the backing sequence, `try_pop` returns an item immediately if
and only if at least one item is queued and neither `draining_` nor
`shutdown_` is set; in particular, when `draining_` is set `try_pop`
returns no item even when items remain queued (those remain retrievable
via `pop`).  It never waits. -/
theorem try_pop_some_iff (f : List α → List α) (q : RandomizedQueue α)
    (hf : (f q.items_).Perm q.items_) :
    ((RandomizedQueue.try_pop f q).1.isSome
      = (!q.items_.isEmpty && !q.draining_ && !q.shutdown_)) ∧
    (q.draining_ = true → (RandomizedQueue.try_pop f q).1 = none) := by
  constructor
  · cases hd : q.draining_ <;> cases hs : q.shutdown_ <;>
      cases he : q.items_.isEmpty <;>
      simp only [RandomizedQueue.try_pop, hd, hs, he, Bool.false_or,
        Bool.or_false, Bool.or_true, Bool.true_or, Bool.not_false,
        Bool.not_true, Bool.and_false, Bool.false_and, Bool.and_true,
        Bool.true_and, if_true, if_false, Option.isSome_none,
        Bool.cond_self, cond_true, cond_false]
    case false.false.false =>
      have hne : q.items_ ≠ [] := by
        intro h0
        rw [h0] at he
        simp at he
      have hfne : f q.items_ ≠ [] := by
        intro h0
        apply hne
        have hl := hf.length_eq
        rw [h0] at hl
        exact List.length_eq_zero.mp hl.symm
      rw [List.getLast?_eq_getLast _ hfne]
      simp
  · intro hd
    simp [RandomizedQueue.try_pop, hd]

/-- Witness for C1 (amended): on a one-item queue with both flags clear
and the identity shuffle, `try_pop` returns an item. -/
theorem try_pop_some_iff_witness :
    ((RandomizedQueue.try_pop (fun l => l)
        (⟨[5], false, false⟩ : RandomizedQueue Nat)).1.isSome
      = (!(⟨[5], false, false⟩ : RandomizedQueue Nat).items_.isEmpty &&
          !(⟨[5], false, false⟩ : RandomizedQueue Nat).draining_ &&
          !(⟨[5], false, false⟩ : RandomizedQueue Nat).shutdown_)) ∧
    ((⟨[5], false, false⟩ : RandomizedQueue Nat).draining_ = true →
      (RandomizedQueue.try_pop (fun l => l)
        (⟨[5], false, false⟩ : RandomizedQueue Nat)).1 = none) :=
  try_pop_some_iff (fun l => l) ⟨[5], false, false⟩ (List.Perm.refl _)

theorem pops_drained (fs : List (List α → List α)) (l : List α)
    (hperm : ∀ f ∈ fs, ∀ m : List α, (f m).Perm m)
    (hlen : fs.length = l.length) :
    (RandomizedQueue.pops fs (⟨l, true, false⟩ : RandomizedQueue α)).1.Perm l ∧
    (RandomizedQueue.pops fs (⟨l, true, false⟩ : RandomizedQueue α)).2
      = ⟨[], true, false⟩ := by
  induction fs generalizing l with
  | nil =>
    have hl : l = [] := List.length_eq_zero.mp hlen.symm
    subst hl
    exact ⟨List.Perm.refl _, rfl⟩
  | cons f fs ih =>
    have hne : l ≠ [] := by
      intro h0
      rw [h0] at hlen
      simp at hlen
    have hf := hperm f (List.mem_cons_self _ _) l
    have hfne : f l ≠ [] := by
      intro h0
      apply hne
      have hl := hf.length_eq
      rw [h0] at hl
      exact List.length_eq_zero.mp hl.symm
    have hpop : RandomizedQueue.pop f (⟨l, true, false⟩ : RandomizedQueue α)
        = some (some ((f l).getLast hfne),
            ⟨(f l).dropLast, true, false⟩) := by
      simp [RandomizedQueue.pop, hne, List.getLast?_eq_getLast _ hfne]
    have hlen' : fs.length = (f l).dropLast.length := by
      rw [List.length_dropLast, hf.length_eq, ← hlen]
      rfl
    obtain ⟨ihp, ihq⟩ := ih ((f l).dropLast)
      (fun g hg => hperm g (List.mem_cons_of_mem _ hg)) hlen'
    have hunfold : RandomizedQueue.pops (f :: fs)
        (⟨l, true, false⟩ : RandomizedQueue α)
        = (((f l).getLast hfne) ::
            (RandomizedQueue.pops fs ⟨(f l).dropLast, true, false⟩).1,
           (RandomizedQueue.pops fs ⟨(f l).dropLast, true, false⟩).2) := by
      simp [RandomizedQueue.pops, hpop]
    rw [hunfold]
    refine ⟨?_, ihq⟩
    have h1 := ihp.cons ((f l).getLast hfne)
    have h2 : (((f l).getLast hfne) :: (f l).dropLast).Perm
        ((f l).dropLast ++ [(f l).getLast hfne]) :=
      (List.perm_append_singleton _ _).symm
    have h3 : (f l).dropLast ++ [(f l).getLast hfne] = f l :=
      List.dropLast_append_getLast hfne
    exact h1.trans (h2.trans (by rw [h3]; exact hf))

/-- Claim C4: after `drain()` on a queue holding `k` items (with
`shutdown_` clear), `k` subsequent `pop()` calls return exactly the
queued items, each exactly once in some order; the queue is then empty
and every further `pop()` returns no item, forever.  The shuffles are
quantified over all permutations of the backing sequence. -/
theorem drain_then_pop_all (q : RandomizedQueue α)
    (fs : List (List α → List α))
    (hs : q.shutdown_ = false)
    (hperm : ∀ f ∈ fs, ∀ m : List α, (f m).Perm m)
    (hlen : fs.length = q.items_.length) :
    (RandomizedQueue.pops fs (RandomizedQueue.drain q)).1.Perm q.items_ ∧
    (RandomizedQueue.pops fs (RandomizedQueue.drain q)).2.items_ = [] ∧
    ∀ g, RandomizedQueue.pop g
        (RandomizedQueue.pops fs (RandomizedQueue.drain q)).2
      = some (none, (RandomizedQueue.pops fs (RandomizedQueue.drain q)).2) := by
  have hq : RandomizedQueue.drain q
      = (⟨q.items_, true, false⟩ : RandomizedQueue α) := by
    simp [RandomizedQueue.drain, hs]
  rw [hq]
  obtain ⟨hp, hfin⟩ := pops_drained fs q.items_ hperm hlen
  refine ⟨hp, by rw [hfin], ?_⟩
  intro g
  rw [hfin]
  simp [RandomizedQueue.pop]

/-- Witness for C4: draining a queue holding `[1,2,3]` and popping
three times with identity shuffles yields the three items (a
permutation of `[1,2,3]`), leaves the queue empty, and a fourth `pop`
returns no item. -/
theorem drain_then_pop_all_witness :
    (RandomizedQueue.pops (List.replicate 3 (fun m : List Nat => m))
      (RandomizedQueue.drain ⟨[1, 2, 3], false, false⟩)).1.Perm [1, 2, 3] ∧
    (RandomizedQueue.pops (List.replicate 3 (fun m : List Nat => m))
      (RandomizedQueue.drain ⟨[1, 2, 3], false, false⟩)).2.items_ = [] ∧
    RandomizedQueue.pop (fun m : List Nat => m)
      (RandomizedQueue.pops (List.replicate 3 (fun m : List Nat => m))
        (RandomizedQueue.drain ⟨[1, 2, 3], false, false⟩)).2
      = some (none,
          (RandomizedQueue.pops (List.replicate 3 (fun m : List Nat => m))
            (RandomizedQueue.drain ⟨[1, 2, 3], false, false⟩)).2) := by
  obtain ⟨h1, h2, h3⟩ := drain_then_pop_all
    (⟨[1, 2, 3], false, false⟩ : RandomizedQueue Nat)
    (List.replicate 3 (fun m : List Nat => m)) rfl
    (by
      intro f hf m
      rw [List.eq_of_mem_replicate hf]) rfl
  exact ⟨h1, h2, h3 _⟩

/-- Claim C5: after `shutdown()`, every `pop()` and `try_pop()` returns
no item and leaves the state unchanged, even when items remain queued
internally; iterating `pop` after shutdown never returns any previously
queued (abandoned) item. -/
theorem shutdown_pop_none (q : RandomizedQueue α) (f : List α → List α)
    (fs : List (List α → List α)) :
    RandomizedQueue.pop f (RandomizedQueue.shutdown q)
      = some (none, RandomizedQueue.shutdown q) ∧
    RandomizedQueue.try_pop f (RandomizedQueue.shutdown q)
      = (none, RandomizedQueue.shutdown q) ∧
    (RandomizedQueue.pops fs (RandomizedQueue.shutdown q)).1 = [] ∧
    (RandomizedQueue.pops fs (RandomizedQueue.shutdown q)).2
      = RandomizedQueue.shutdown q := by
  have hpop : ∀ g : List α → List α,
      RandomizedQueue.pop g (RandomizedQueue.shutdown q)
        = some (none, RandomizedQueue.shutdown q) := by
    intro g
    simp [RandomizedQueue.pop, RandomizedQueue.shutdown]
  have hpops : ∀ gs : List (List α → List α),
      (RandomizedQueue.pops gs (RandomizedQueue.shutdown q)).1 = [] ∧
      (RandomizedQueue.pops gs (RandomizedQueue.shutdown q)).2
        = RandomizedQueue.shutdown q := by
    intro gs
    induction gs with
    | nil => exact ⟨rfl, rfl⟩
    | cons g gs ih =>
      simp only [RandomizedQueue.pops, hpop g]
      exact ih
  exact ⟨hpop f, by simp [RandomizedQueue.try_pop, RandomizedQueue.shutdown],
    (hpops fs).1, (hpops fs).2⟩

/-- Claim C6: `push` returns `false` if and only if `draining_` or
`shutdown_` is set at the time of the call, in which case the queue is
unchanged; otherwise it appends the item to the backing sequence and
returns `true`.  It never waits on a condition variable. -/
theorem push_rejected_iff_flags (x : α) (q : RandomizedQueue α) :
    RandomizedQueue.push x q
      = (!(q.draining_ || q.shutdown_),
         if q.draining_ || q.shutdown_ then q
         else { q with items_ := q.items_ ++ [x] }) := by
  unfold RandomizedQueue.push
  cases h : (q.draining_ || q.shutdown_) <;> simp [h]

/-- Claim C7: `try_push` is observationally equivalent to `push` — same
boolean result and same resulting queue on every state and item — and it
only fails because of the flags, never because of a capacity bound. -/
theorem try_push_equiv_push (x : α) (q : RandomizedQueue α) :
    RandomizedQueue.try_push x q = RandomizedQueue.push x q ∧
    (RandomizedQueue.try_push x q).1 = !(q.draining_ || q.shutdown_) := by
  refine ⟨rfl, ?_⟩
  unfold RandomizedQueue.try_push
  cases h : (q.draining_ || q.shutdown_) <;> simp [h]

/-- Claim C9: `drain` and `shutdown` are idempotent — a second call
observes the flag already set and changes nothing further. -/
theorem drain_shutdown_idempotent (q : RandomizedQueue α) :
    RandomizedQueue.drain (RandomizedQueue.drain q)
      = RandomizedQueue.drain q ∧
    RandomizedQueue.shutdown (RandomizedQueue.shutdown q)
      = RandomizedQueue.shutdown q :=
  ⟨rfl, rfl⟩

theorem applyQOp_flags_mono (q : RandomizedQueue α) (op : QOp α) :
    (q.draining_ = true → (applyQOp q op).draining_ = true) ∧
    (q.shutdown_ = true → (applyQOp q op).shutdown_ = true) := by
  cases op with
  | push x =>
    cases hc : (q.draining_ || q.shutdown_) <;>
      simp [applyQOp, RandomizedQueue.push, hc]
  | try_push x =>
    cases hc : (q.draining_ || q.shutdown_) <;>
      simp [applyQOp, RandomizedQueue.try_push, hc]
  | try_pop f =>
    cases hc : (q.items_.isEmpty || q.draining_ || q.shutdown_) <;>
      cases hgl : (f q.items_).getLast? <;>
      simp [applyQOp, RandomizedQueue.try_pop, hc, hgl]
  | pop f =>
    cases h1 : (q.items_.isEmpty && !q.draining_ && !q.shutdown_) <;>
      cases h2 : ((q.draining_ && q.items_.isEmpty) || q.shutdown_) <;>
      cases hgl : (f q.items_).getLast? <;>
      simp [applyQOp, RandomizedQueue.pop, h1, h2, hgl]
  | drain => simp [applyQOp, RandomizedQueue.drain]
  | shutdown => simp [applyQOp, RandomizedQueue.shutdown]

/-- Claim C10: the `draining_` and `shutdown_` flags are monotone — no
sequence of public interface calls ever clears a set flag, so every
state reachable after a `drain()` or `shutdown()` keeps that flag set
forever. -/
theorem queue_flags_monotone (q : RandomizedQueue α) (ops : List (QOp α)) :
    (q.draining_ = true → (runQOps q ops).draining_ = true) ∧
    (q.shutdown_ = true → (runQOps q ops).shutdown_ = true) := by
  induction ops generalizing q with
  | nil => exact ⟨fun h => h, fun h => h⟩
  | cons op ops ih =>
    exact ⟨fun h => (ih (applyQOp q op)).1 ((applyQOp_flags_mono q op).1 h),
      fun h => (ih (applyQOp q op)).2 ((applyQOp_flags_mono q op).2 h)⟩

/-- Witness for C10: starting from a queue with both flags set, a
push followed by a drain leaves both flags set. -/
theorem queue_flags_monotone_witness :
    (runQOps (⟨[], true, true⟩ : RandomizedQueue Nat)
      [QOp.push 7, QOp.drain]).draining_ = true ∧
    (runQOps (⟨[], true, true⟩ : RandomizedQueue Nat)
      [QOp.push 7, QOp.drain]).shutdown_ = true :=
  ⟨(queue_flags_monotone ⟨[], true, true⟩ [QOp.push 7, QOp.drain]).1 rfl,
   (queue_flags_monotone ⟨[], true, true⟩ [QOp.push 7, QOp.drain]).2 rfl⟩

end TileDBCommon
